import Mathlib

/-!
Shallow embedding of the go-libp2p option/builder core
(`libp2p.go` and `config/config.go`).

External collaborators (multiaddr parsing, key generation, peer-ID
derivation, the reflective constructor resolvers, swarm transport
registration, relay installation, listen binding) are parameters,
gathered in a `World` structure, so every theorem below is quantified
over their behaviour.  Everything written in the repository itself is
translated line by line.
-/

/-- Go `crypto.PrivKey` values (the concrete key is irrelevant here). -/
abbrev PrivKey := Nat

/-- Go `crypto.PubKey` values. -/
abbrev PubKey := Nat

/-- Go `peer.ID` values. -/
abbrev PeerID := Nat

/-- Parsed `ma.Multiaddr` values. -/
abbrev Multiaddr := Nat

/-- Go `pnet.Protector` values. -/
abbrev Protector := Nat

/-- Go `metrics.Reporter` values. -/
abbrev Reporter := Nat

/-- Go `circuit.RelayOpt` values. -/
abbrev RelayOpt := Nat

/-- A resolved transport constructor (`config.TptC`). -/
abbrev TptC := Nat

/-- `config.MsSecC`: a resolved security constructor together with its
protocol name. -/
structure MsSecC where
  secC : Nat
  id : String
deriving DecidableEq, Repr

/-- `config.MsMuxC`: a resolved muxer constructor together with its
protocol name. -/
structure MsMuxC where
  muxC : Nat
  id : String
deriving DecidableEq, Repr

/-- The peerstore, observed through the two key books the builder
writes to.  A `none` private key records that Go's nil interface value
was inserted. -/
structure Peerstore where
  privKeys : List (PeerID × Option PrivKey)
  pubKeys : List (PeerID × PubKey)
deriving DecidableEq, Repr

/-- `pstore.NewPeerstore()`: a blank peerstore. -/
def Peerstore.new : Peerstore := ⟨[], []⟩

/-- `ps.AddPrivKey(pid, sk)`; `sk` may be Go's nil interface. -/
def Peerstore.addPrivKey (ps : Peerstore) (p : PeerID) (k : Option PrivKey) : Peerstore :=
  ⟨ps.privKeys ++ [(p, k)], ps.pubKeys⟩

/-- `ps.AddPubKey(pid, pk)`. -/
def Peerstore.addPubKey (ps : Peerstore) (p : PeerID) (k : PubKey) : Peerstore :=
  ⟨ps.privKeys, ps.pubKeys ++ [(p, k)]⟩

/-- The basic host wrapping the swarm: it carries the peer ID and the
peerstore the swarm was built from. -/
structure Host where
  pid : PeerID
  ps : Peerstore
deriving DecidableEq, Repr

/-- `config.Config`, field for field. -/
structure Config where
  transports : List TptC
  muxers : List MsMuxC
  securityTransports : List MsSecC
  listenAddrs : List Multiaddr
  peerKey : Option PrivKey
  peerstore : Option Peerstore
  protector : Option Protector
  reporter : Option Reporter
  relay : Bool
  relayOpts : List RelayOpt
  insecure : Bool
deriving DecidableEq, Repr

/-- The Go zero value `config.Config{}` that `New` starts from. -/
def Config.empty : Config := ⟨[], [], [], [], none, none, none, none, false, [], false⟩

/-- The cancellation context handed to `Config.NewNode`. -/
structure Ctx where
  cancelled : Bool
deriving DecidableEq, Repr

/-- Roles of pluggable providers. -/
inductive Role where
  | sec
  | mux
  | tpt
deriving DecidableEq, Repr

/-- Observable events of one build, used to state when constructors
run, when the key is generated and when the host is created/closed. -/
inductive Event where
  | shapeChecked (r : Role) (tok : Nat)
  | nodeStart
  | keyGen
  | hostNew
  | hostClosed
  | invoked (r : Role) (tok : Nat)
deriving DecidableEq, Repr

/-- `true` exactly on `Event.invoked` events. -/
def Event.isInvoked : Event → Bool
  | .invoked _ _ => true
  | _ => false

/-- `true` exactly on `Event.shapeChecked` events (the only events an
option application can produce). -/
def Event.isShape : Event → Bool
  | .shapeChecked _ _ => true
  | _ => false

/-- Behaviour of everything outside the two repository files: the
multiaddr parser, key generation, peer-ID derivation, the three
constructor-shape resolvers of the config package, the deferred
invocation of resolved constructors, and the swarm/relay/listen
operations.  `secShape`, `muxShape`, `tptShape` stand for
`config.SecurityConstructor` / `MuxerConstructor` /
`TransportConstructor`, which (per the spec, section 4.1) only check
the constructor's shape at option time; the user constructor itself is
run later, modelled by `runSecC` / `runMuxC` / `runTptC`. -/
structure World where
  secShape : Nat → Except String Nat
  muxShape : Nat → Except String Nat
  tptShape : Nat → Except String Nat
  parseAddr : String → Except String Multiaddr
  genKey : Except String PrivKey
  getPub : PrivKey → PubKey
  idFromPub : PubKey → Except String PeerID
  runSecC : Host → Nat → Except String Nat
  runMuxC : Host → Nat → Except String Nat
  runTptC : Host → Nat → Except String Nat
  addTransport : Nat → Except String Unit
  addRelay : Ctx → List RelayOpt → Except String Unit
  listen : List Multiaddr → Except String Unit

/-- The option constructors exported by `libp2p.go` (a Go `Option` is
`func(*config.Config) error`; these are the ones the library builds). -/
inductive Opt where
  | listenAddrStrings (ss : List String)
  | listenAddrs (addrs : List Multiaddr)
  | noSecurity
  | security (name : String) (tpt : Nat)
  | muxer (name : String) (tpt : Nat)
  | transport (tpt : Nat)
  | peerstore (ps : Peerstore)
  | privateNetwork (prot : Protector)
  | bandwidthReporter (rep : Reporter)
  | identity (sk : PrivKey)
deriving DecidableEq, Repr

/-- Result of running one option (or a chain): the config after the
call — Go options mutate the config in place, so a failing option still
returns the partially mutated config — the error, if any, and the
emitted events. -/
structure OptResult where
  cfg : Config
  err : Option String
  evs : List Event
deriving DecidableEq, Repr

/-- The loop body of `ListenAddrStrings`: parse each string in order,
appending as it goes, returning the first parse error. -/
def listenLoop (W : World) : List String → Config → OptResult
  | [], cfg => ⟨cfg, none, []⟩
  | s :: rest, cfg =>
    match W.parseAddr s with
    | .error e => ⟨cfg, some e, []⟩
    | .ok a => listenLoop W rest ⟨cfg.transports, cfg.muxers, cfg.securityTransports,
        cfg.listenAddrs ++ [a], cfg.peerKey, cfg.peerstore, cfg.protector, cfg.reporter,
        cfg.relay, cfg.relayOpts, cfg.insecure⟩

/-- The error message shared by `NoSecurity` and `Security`. -/
def secInsecureErr : String :=
  "cannot use security transports with an insecure libp2p configuration"

/-- Semantics of one option applied to a config, clause by clause from
`libp2p.go`. -/
def applyOpt (W : World) : Opt → Config → OptResult
  | .listenAddrStrings ss, cfg => listenLoop W ss cfg
  | .listenAddrs addrs, cfg =>
      ⟨{ cfg with listenAddrs := cfg.listenAddrs ++ addrs }, none, []⟩
  | .noSecurity, cfg =>
      if 0 < cfg.securityTransports.length then
        ⟨cfg, some secInsecureErr, []⟩
      else
        ⟨{ cfg with insecure := true }, none, []⟩
  | .security nm t, cfg =>
      if cfg.insecure then
        ⟨cfg, some secInsecureErr, []⟩
      else
        match W.secShape t with
        | .ok s =>
            ⟨{ cfg with securityTransports := cfg.securityTransports ++ [⟨s, nm⟩] },
              none, [.shapeChecked .sec t]⟩
        | .error e => ⟨cfg, some e, [.shapeChecked .sec t]⟩
  | .muxer nm t, cfg =>
      match W.muxShape t with
      | .ok m =>
          ⟨{ cfg with muxers := cfg.muxers ++ [⟨m, nm⟩] }, none, [.shapeChecked .mux t]⟩
      | .error e => ⟨cfg, some e, [.shapeChecked .mux t]⟩
  | .transport t, cfg =>
      match W.tptShape t with
      | .ok tc =>
          ⟨{ cfg with transports := cfg.transports ++ [tc] }, none, [.shapeChecked .tpt t]⟩
      | .error e => ⟨cfg, some e, [.shapeChecked .tpt t]⟩
  | .peerstore ps, cfg =>
      match cfg.peerstore with
      | some _ => ⟨cfg, some "cannot specify multiple peerstore options", []⟩
      | none => ⟨{ cfg with peerstore := some ps }, none, []⟩
  | .privateNetwork prot, cfg =>
      match cfg.protector with
      | some _ => ⟨cfg, some "cannot specify multiple private network options", []⟩
      | none => ⟨{ cfg with protector := some prot }, none, []⟩
  | .bandwidthReporter rep, cfg =>
      match cfg.reporter with
      | some _ => ⟨cfg, some "cannot specify multiple bandwidth reporter options", []⟩
      | none => ⟨{ cfg with reporter := some rep }, none, []⟩
  | .identity sk, cfg =>
      match cfg.peerKey with
      | some _ => ⟨cfg, some "cannot specify multiple identities", []⟩
      | none => ⟨{ cfg with peerKey := some sk }, none, []⟩

/-- The option loop of `New`: apply each option in order, stopping at
the first error. -/
def runOpts (W : World) : List Opt → Config → OptResult
  | [], cfg => ⟨cfg, none, []⟩
  | o :: os, cfg =>
    match applyOpt W o cfg with
    | ⟨c, some e, evs⟩ => ⟨c, some e, evs⟩
    | ⟨c, none, evs⟩ =>
      match runOpts W os c with
      | ⟨c2, e2, evs2⟩ => ⟨c2, e2, evs ++ evs2⟩

/-- The loop inside the option returned by `ChainOptions` (textually
the same loop as `New`'s, written separately in the source). -/
def chainLoop (W : World) : List Opt → Config → OptResult
  | [], cfg => ⟨cfg, none, []⟩
  | o :: os, cfg =>
    match applyOpt W o cfg with
    | ⟨c, some e, evs⟩ => ⟨c, some e, evs⟩
    | ⟨c, none, evs⟩ =>
      match chainLoop W os c with
      | ⟨c2, e2, evs2⟩ => ⟨c2, e2, evs ++ evs2⟩

/-- `ChainOptions(opts...)`: the single option folding its children. -/
def ChainOptions (W : World) (opts : List Opt) : Config → OptResult :=
  fun cfg => chainLoop W opts cfg

/-- Outcome of `Config.NewNode` / `New`: a host, a returned error, or a
runtime panic, together with the build events. -/
inductive NodeResult where
  | ok (h : Host)
  | err (e : String)
  | panics
deriving DecidableEq, Repr

/-- A build outcome together with its event log. -/
structure BuildResult where
  res : NodeResult
  evs : List Event
deriving DecidableEq, Repr

/-- Modelled from the spec: `makeSecurityTransport` (config package,
not under src/) resolves the registered security providers by invoking
each registered constructor once, in registration order, failing fast
on the first error and exposing the full ordered list (spec sections
4.1 and 4.3 step 6). -/
def makeSecurityTransport (W : World) (h : Host) : List MsSecC → Except String Unit × List Event
  | [] => (.ok (), [])
  | s :: rest =>
    match W.runSecC h s.secC with
    | .error e => (.error e, [.invoked .sec s.secC])
    | .ok _ =>
      match makeSecurityTransport W h rest with
      | (r, evs) => (r, .invoked .sec s.secC :: evs)

/-- Modelled from the spec: `makeMuxer` (config package, not under
src/) resolves the registered muxer providers by invoking each
registered constructor once, in registration order, failing fast (spec
sections 4.1 and 4.3 step 6). -/
def makeMuxer (W : World) (h : Host) : List MsMuxC → Except String Unit × List Event
  | [] => (.ok (), [])
  | m :: rest =>
    match W.runMuxC h m.muxC with
    | .error e => (.error e, [.invoked .mux m.muxC])
    | .ok _ =>
      match makeMuxer W h rest with
      | (r, evs) => (r, .invoked .mux m.muxC :: evs)

/-- Modelled from the spec: `makeTransports` (config package, not under
src/) resolves each registered transport provider by invoking its
constructor once, in registration order, failing fast; a failure at any
single transport aborts the build (spec sections 4.1 and 4.3 step 7). -/
def makeTransports (W : World) (h : Host) : List TptC → Except String (List Nat) × List Event
  | [] => (.ok [], [])
  | t :: rest =>
    match W.runTptC h t with
    | .error e => (.error e, [.invoked .tpt t])
    | .ok tc =>
      match makeTransports W h rest with
      | (.error e, evs) => (.error e, .invoked .tpt t :: evs)
      | (.ok tcs, evs) => (.ok (tc :: tcs), .invoked .tpt t :: evs)

/-- The `swrm.AddTransport` loop of `NewNode`. -/
def addTransports (W : World) : List Nat → Except String Unit
  | [] => .ok ()
  | t :: rest =>
    match W.addTransport t with
    | .error e => .error e
    | .ok _ => addTransports W rest

/-- The tail of `NewNode` after `h := bhost.New(swrm)`: upgrader
security/muxer resolution, transport construction and registration,
optional relay installation, listen binding.  Every failing branch
closes the host (`h.Close()`, recorded as `Event.hostClosed`) before
returning the error, exactly as in the source. -/
def buildAfterHost (W : World) (ctx : Ctx) (cfg : Config) (h : Host) :
    NodeResult × List Event :=
  match makeSecurityTransport W h cfg.securityTransports with
  | (.error e, evs1) => (.err e, evs1 ++ [.hostClosed])
  | (.ok _, evs1) =>
    match makeMuxer W h cfg.muxers with
    | (.error e, evs2) => (.err e, evs1 ++ evs2 ++ [.hostClosed])
    | (.ok _, evs2) =>
      match makeTransports W h cfg.transports with
      | (.error e, evs3) => (.err e, evs1 ++ evs2 ++ evs3 ++ [.hostClosed])
      | (.ok tpts, evs3) =>
        match addTransports W tpts with
        | .error e => (.err e, evs1 ++ evs2 ++ evs3 ++ [.hostClosed])
        | .ok _ =>
          match (if cfg.relay then W.addRelay ctx cfg.relayOpts else .ok ()) with
          | .error e => (.err e, evs1 ++ evs2 ++ evs3 ++ [.hostClosed])
          | .ok _ =>
            match W.listen cfg.listenAddrs with
            | .error e => (.err e, evs1 ++ evs2 ++ evs3 ++ [.hostClosed])
            | .ok _ => (.ok h, evs1 ++ evs2 ++ evs3)

/-- The peerstore `NewNode` populates: the configured one if present,
otherwise a new blank peerstore. -/
def nodePeerstore (cfg : Config) : Peerstore :=
  match cfg.peerstore with
  | some ps => ps
  | none => Peerstore.new

/-- `NewNode` from peer-ID derivation on, with the resolved local
`privKey` in hand.  Note that, as in the source, the peerstore is
populated from `cfg.PeerKey`, not from the local `privKey`: when
`cfg.PeerKey` is Go's nil interface, `cfg.PeerKey.GetPublic()` is a
method call on a nil interface value and panics. -/
def newNodeWithKey (W : World) (ctx : Ctx) (cfg : Config) (privKey : PrivKey)
    (evs0 : List Event) : BuildResult :=
  match W.idFromPub (W.getPub privKey) with
  | .error e => ⟨.err e, evs0⟩
  | .ok pid =>
    match cfg.peerKey with
    | none => ⟨.panics, evs0⟩
    | some k0 =>
      match buildAfterHost W ctx cfg
          ⟨pid, (((nodePeerstore cfg).addPrivKey pid cfg.peerKey).addPubKey pid
            (W.getPub k0))⟩ with
      | (res, evs) => ⟨res, evs0 ++ Event.hostNew :: evs⟩

/-- `Config.NewNode`: generate a key if none was configured, then build
the node.  `Event.nodeStart` marks the entry into `NewNode`;
`Event.keyGen` marks the call to `crypto.GenerateKeyPairWithReader`. -/
def Config.NewNode (W : World) (ctx : Ctx) (cfg : Config) : BuildResult :=
  match cfg.peerKey with
  | some k => newNodeWithKey W ctx cfg k [Event.nodeStart]
  | none =>
    match W.genKey with
    | .error e => ⟨.err e, [Event.nodeStart, Event.keyGen]⟩
    | .ok k => newNodeWithKey W ctx cfg k [Event.nodeStart, Event.keyGen]

/-- `libp2p.New`: fold the options over the zero config, then hand the
config to `NewNode`; on an option error, return it without building. -/
def New (W : World) (ctx : Ctx) (opts : List Opt) : BuildResult :=
  match runOpts W opts Config.empty with
  | ⟨_, some e, evs⟩ => ⟨.err e, evs⟩
  | ⟨cfg, none, evs⟩ =>
    match Config.NewNode W ctx cfg with
    | ⟨res, evs2⟩ => ⟨res, evs ++ evs2⟩

/-- The parsing pass of `ListenAddrStrings` on its own: the parsed
addresses in order, or the first parse error. -/
def parseAll (W : World) : List String → Except String (List Multiaddr)
  | [] => .ok []
  | s :: rest =>
    match W.parseAddr s with
    | .error e => .error e
    | .ok a =>
      match parseAll W rest with
      | .error e => .error e
      | .ok as => .ok (a :: as)

/-- The mutual-exclusion invariant of the config: the insecure flag and
a non-empty security-provider list never hold together. -/
def SecInv (cfg : Config) : Prop :=
  cfg.insecure = true → cfg.securityTransports = []

/-- A concrete external world used to evaluate the model on closed
inputs. -/
def W0 : World :=
  ⟨fun t => if t = 0 then .error "secshape" else .ok (t + 100),
   fun t => if t = 0 then .error "muxshape" else .ok (t + 200),
   fun t => if t = 0 then .error "tptshape" else .ok (t + 300),
   fun s => if s = "bad" then .error "parse" else .ok s.length,
   Except.ok 7,
   fun k => k + 1,
   fun p => Except.ok (p + 1),
   fun _ c => if c = 999 then .error "secctor" else .ok c,
   fun _ c => if c = 999 then .error "muxctor" else .ok c,
   fun _ c => if c = 999 then .error "tptctor" else .ok c,
   fun t => if t = 998 then .error "addtpt" else .ok (),
   fun _ _ => Except.ok (),
   fun l => if l.contains 997 then .error "listen" else .ok ()⟩

/-! ## Helper lemmas -/

theorem shape_not_invoked (e : Event) (h : e.isShape = true) : e.isInvoked = false := by
  cases e <;> simp_all [Event.isShape, Event.isInvoked]

theorem all_shape_filter_invoked (l : List Event) (h : ∀ e ∈ l, e.isShape = true) :
    l.filter Event.isInvoked = [] := by
  induction l with
  | nil => rfl
  | cons e rest ih =>
    have he := shape_not_invoked e (h e (by simp))
    simp [List.filter, he, ih fun x hx => h x (by simp [hx])]

theorem all_shape_no_nodeStart (l : List Event) (h : ∀ e ∈ l, e.isShape = true) :
    Event.nodeStart ∉ l := by
  intro hmem
  have := h _ hmem
  simp [Event.isShape] at this

theorem filter_invoked_map {α : Type} (f : α → Event) (hf : ∀ a, (f a).isInvoked = true)
    (l : List α) : (l.map f).filter Event.isInvoked = l.map f := by
  induction l with
  | nil => rfl
  | cons a rest ih => simp [List.filter, hf a, ih]

theorem listenLoop_evs (W : World) : ∀ (ss : List String) (cfg : Config),
    (listenLoop W ss cfg).evs = [] := by
  intro ss
  induction ss with
  | nil => intro cfg; rfl
  | cons s rest ih =>
    intro cfg
    unfold listenLoop
    cases W.parseAddr s <;> simp [ih]

theorem listenLoop_fields (W : World) : ∀ (ss : List String) (cfg : Config),
    (listenLoop W ss cfg).cfg.securityTransports = cfg.securityTransports ∧
    (listenLoop W ss cfg).cfg.insecure = cfg.insecure := by
  intro ss
  induction ss with
  | nil => intro cfg; exact ⟨rfl, rfl⟩
  | cons s rest ih =>
    intro cfg
    unfold listenLoop
    cases W.parseAddr s <;> simp [ih]

theorem applyOpt_evs_shape (W : World) (o : Opt) (cfg : Config) :
    ∀ e ∈ (applyOpt W o cfg).evs, e.isShape = true := by
  intro e he
  cases o with
  | listenAddrStrings ss =>
    simp only [applyOpt] at he
    rw [listenLoop_evs] at he
    simp at he
  | listenAddrs addrs => simp only [applyOpt] at he; simp at he
  | noSecurity =>
    simp only [applyOpt] at he
    split at he <;> simp at he
  | security nm t =>
    simp only [applyOpt] at he
    split at he
    · simp at he
    · split at he <;> simp at he <;> simp [he, Event.isShape]
  | muxer nm t =>
    simp only [applyOpt] at he
    split at he <;> simp at he <;> simp [he, Event.isShape]
  | transport t =>
    simp only [applyOpt] at he
    split at he <;> simp at he <;> simp [he, Event.isShape]
  | peerstore ps =>
    simp only [applyOpt] at he
    split at he <;> simp at he
  | privateNetwork prot =>
    simp only [applyOpt] at he
    split at he <;> simp at he
  | bandwidthReporter rep =>
    simp only [applyOpt] at he
    split at he <;> simp at he
  | identity sk =>
    simp only [applyOpt] at he
    split at he <;> simp at he

theorem runOpts_evs_shape (W : World) : ∀ (os : List Opt) (cfg : Config),
    ∀ e ∈ (runOpts W os cfg).evs, e.isShape = true := by
  intro os
  induction os with
  | nil => intro cfg e he; cases he
  | cons o rest ih =>
    intro cfg e he
    unfold runOpts at he
    rcases ha : applyOpt W o cfg with ⟨c, err, evs⟩
    rw [ha] at he
    have hevs : ∀ x ∈ evs, Event.isShape x = true := by
      intro x hx
      have := applyOpt_evs_shape W o cfg x
      rw [ha] at this
      exact this hx
    cases err with
    | some e2 => simp at he; exact hevs e he
    | none =>
      rcases hr : runOpts W rest c with ⟨c2, e2, evs2⟩
      simp [hr] at he
      rcases he with h1 | h2
      · exact hevs e h1
      · have := ih c e
        rw [hr] at this
        exact this h2

theorem chainLoop_eq_runOpts (W : World) : ∀ (os : List Opt) (cfg : Config),
    chainLoop W os cfg = runOpts W os cfg := by
  intro os
  induction os with
  | nil => intro cfg; rfl
  | cons o rest ih =>
    intro cfg
    unfold chainLoop runOpts
    rcases applyOpt W o cfg with ⟨c, err, evs⟩
    cases err with
    | some e => rfl
    | none => simp only [ih]

theorem secInv_applyOpt (W : World) (o : Opt) (cfg : Config) (h : SecInv cfg) :
    SecInv (applyOpt W o cfg).cfg := by
  cases o with
  | listenAddrStrings ss =>
    intro hins
    simp only [applyOpt] at hins ⊢
    rw [(listenLoop_fields W ss cfg).1]
    rw [(listenLoop_fields W ss cfg).2] at hins
    exact h hins
  | listenAddrs addrs => intro hins; exact h hins
  | noSecurity =>
    by_cases hl : 0 < cfg.securityTransports.length
    · intro hins
      simp only [applyOpt, if_pos hl] at hins ⊢
      exact h hins
    · intro _
      simp only [applyOpt, if_neg hl]
      simp at hl
      exact hl
  | security nm t =>
    by_cases hI : cfg.insecure
    · intro hins
      simp only [applyOpt, if_pos hI] at hins ⊢
      exact h hins
    · cases hs : W.secShape t with
      | error e =>
        intro hins
        simp only [applyOpt, if_neg hI, hs] at hins ⊢
        exact h hins
      | ok s =>
        intro hins
        simp only [applyOpt, if_neg hI, hs] at hins ⊢
        exact absurd hins hI
  | muxer nm t =>
    cases hs : W.muxShape t with
    | error e => intro hins; simp only [applyOpt, hs] at hins ⊢; exact h hins
    | ok m => intro hins; simp only [applyOpt, hs] at hins ⊢; exact h hins
  | transport t =>
    cases hs : W.tptShape t with
    | error e => intro hins; simp only [applyOpt, hs] at hins ⊢; exact h hins
    | ok tc => intro hins; simp only [applyOpt, hs] at hins ⊢; exact h hins
  | peerstore ps =>
    cases hs : cfg.peerstore with
    | some v => intro hins; simp only [applyOpt, hs] at hins ⊢; exact h hins
    | none => intro hins; simp only [applyOpt, hs] at hins ⊢; exact h hins
  | privateNetwork prot =>
    cases hs : cfg.protector with
    | some v => intro hins; simp only [applyOpt, hs] at hins ⊢; exact h hins
    | none => intro hins; simp only [applyOpt, hs] at hins ⊢; exact h hins
  | bandwidthReporter rep =>
    cases hs : cfg.reporter with
    | some v => intro hins; simp only [applyOpt, hs] at hins ⊢; exact h hins
    | none => intro hins; simp only [applyOpt, hs] at hins ⊢; exact h hins
  | identity sk =>
    cases hs : cfg.peerKey with
    | some v => intro hins; simp only [applyOpt, hs] at hins ⊢; exact h hins
    | none => intro hins; simp only [applyOpt, hs] at hins ⊢; exact h hins

theorem secInv_runOpts (W : World) : ∀ (os : List Opt) (cfg : Config), SecInv cfg →
    SecInv (runOpts W os cfg).cfg := by
  intro os
  induction os with
  | nil => intro cfg h; exact h
  | cons o rest ih =>
    intro cfg h
    unfold runOpts
    rcases ha : applyOpt W o cfg with ⟨c, err, evs⟩
    have hc : SecInv c := by
      have := secInv_applyOpt W o cfg h
      rw [ha] at this
      exact this
    simp only [ha]
    cases err with
    | some e => exact hc
    | none =>
      rcases hr : runOpts W rest c with ⟨c2, e2, evs2⟩
      simp only [hr]
      have := ih c hc
      rw [hr] at this
      exact this

theorem makeSec_ok_evs (W : World) (h : Host) : ∀ (l : List MsSecC) (evs : List Event),
    makeSecurityTransport W h l = (Except.ok (), evs) →
    evs = l.map fun s => Event.invoked Role.sec s.secC := by
  intro l
  induction l with
  | nil =>
    intro evs hp
    simp [makeSecurityTransport] at hp
    simp [hp]
  | cons s rest ih =>
    intro evs hp
    unfold makeSecurityTransport at hp
    cases hr : W.runSecC h s.secC with
    | error e => rw [hr] at hp; simp at hp
    | ok v =>
      rw [hr] at hp
      rcases hm : makeSecurityTransport W h rest with ⟨r, evs2⟩
      rw [hm] at hp
      simp at hp
      rcases hp with ⟨hr2, hevs⟩
      rw [hr2] at hm
      rw [← hevs, ih evs2 hm]
      simp

theorem makeMux_ok_evs (W : World) (h : Host) : ∀ (l : List MsMuxC) (evs : List Event),
    makeMuxer W h l = (Except.ok (), evs) →
    evs = l.map fun m => Event.invoked Role.mux m.muxC := by
  intro l
  induction l with
  | nil =>
    intro evs hp
    simp [makeMuxer] at hp
    simp [hp]
  | cons m rest ih =>
    intro evs hp
    unfold makeMuxer at hp
    cases hr : W.runMuxC h m.muxC with
    | error e => rw [hr] at hp; simp at hp
    | ok v =>
      rw [hr] at hp
      rcases hm : makeMuxer W h rest with ⟨r, evs2⟩
      rw [hm] at hp
      simp at hp
      rcases hp with ⟨hr2, hevs⟩
      rw [hr2] at hm
      rw [← hevs, ih evs2 hm]
      simp

theorem makeTpt_ok_evs (W : World) (h : Host) : ∀ (l : List TptC) (tcs : List Nat)
    (evs : List Event), makeTransports W h l = (Except.ok tcs, evs) →
    evs = l.map fun t => Event.invoked Role.tpt t := by
  intro l
  induction l with
  | nil =>
    intro tcs evs hp
    simp [makeTransports] at hp
    simp [hp]
  | cons t rest ih =>
    intro tcs evs hp
    unfold makeTransports at hp
    cases hr : W.runTptC h t with
    | error e => rw [hr] at hp; simp at hp
    | ok tc =>
      rw [hr] at hp
      rcases hm : makeTransports W h rest with ⟨r, evs2⟩
      rw [hm] at hp
      cases r with
      | error e => simp at hp
      | ok tcs2 =>
        simp at hp
        rcases hp with ⟨-, hevs⟩
        rw [← hevs, ih tcs2 evs2 hm]
        simp

theorem buildAfterHost_err_closed (W : World) (ctx : Ctx) (cfg : Config) (h : Host) :
    ∀ (res : NodeResult) (evs : List Event) (e : String),
    buildAfterHost W ctx cfg h = (res, evs) → res = NodeResult.err e →
    Event.hostClosed ∈ evs := by
  intro res evs e hp hr
  unfold buildAfterHost at hp
  rcases h1 : makeSecurityTransport W h cfg.securityTransports with ⟨r1, evs1⟩
  rw [h1] at hp
  cases r1 with
  | error e1 => simp at hp; rw [← hp.2]; simp
  | ok u1 =>
    rcases h2 : makeMuxer W h cfg.muxers with ⟨r2, evs2⟩
    rw [h2] at hp
    cases r2 with
    | error e2 => simp at hp; rw [← hp.2]; simp
    | ok u2 =>
      rcases h3 : makeTransports W h cfg.transports with ⟨r3, evs3⟩
      rw [h3] at hp
      cases r3 with
      | error e3 => simp at hp; rw [← hp.2]; simp
      | ok tcs =>
        simp at hp
        cases h4 : addTransports W tcs with
        | error e4 => rw [h4] at hp; simp at hp; rw [← hp.2]; simp
        | ok u4 =>
          rw [h4] at hp
          cases h5 : (if cfg.relay then W.addRelay ctx cfg.relayOpts else .ok ()) with
          | error e5 => rw [h5] at hp; simp at hp; rw [← hp.2]; simp
          | ok u5 =>
            rw [h5] at hp
            cases h6 : W.listen cfg.listenAddrs with
            | error e6 => rw [h6] at hp; simp at hp; rw [← hp.2]; simp
            | ok u6 =>
              rw [h6] at hp
              simp at hp
              rw [← hp.1] at hr
              simp at hr

theorem buildAfterHost_ok_filter (W : World) (ctx : Ctx) (cfg : Config) (h : Host) :
    ∀ (res : NodeResult) (evs : List Event) (h2 : Host),
    buildAfterHost W ctx cfg h = (res, evs) → res = NodeResult.ok h2 →
    evs.filter Event.isInvoked =
      (cfg.securityTransports.map fun s => Event.invoked Role.sec s.secC) ++
      (cfg.muxers.map fun m => Event.invoked Role.mux m.muxC) ++
      (cfg.transports.map fun t => Event.invoked Role.tpt t) := by
  intro res evs hh hp hr
  unfold buildAfterHost at hp
  rcases h1 : makeSecurityTransport W h cfg.securityTransports with ⟨r1, evs1⟩
  rw [h1] at hp
  cases r1 with
  | error e1 => simp at hp; rw [← hp.1] at hr; simp at hr
  | ok u1 =>
    rcases h2 : makeMuxer W h cfg.muxers with ⟨r2, evs2⟩
    rw [h2] at hp
    cases r2 with
    | error e2 => simp at hp; rw [← hp.1] at hr; simp at hr
    | ok u2 =>
      rcases h3 : makeTransports W h cfg.transports with ⟨r3, evs3⟩
      rw [h3] at hp
      cases r3 with
      | error e3 => simp at hp; rw [← hp.1] at hr; simp at hr
      | ok tcs =>
        simp at hp
        cases h4 : addTransports W tcs with
        | error e4 => rw [h4] at hp; simp at hp; rw [← hp.1] at hr; simp at hr
        | ok u4 =>
          rw [h4] at hp
          cases h5 : (if cfg.relay then W.addRelay ctx cfg.relayOpts else .ok ()) with
          | error e5 => rw [h5] at hp; simp at hp; rw [← hp.1] at hr; simp at hr
          | ok u5 =>
            rw [h5] at hp
            cases h6 : W.listen cfg.listenAddrs with
            | error e6 => rw [h6] at hp; simp at hp; rw [← hp.1] at hr; simp at hr
            | ok u6 =>
              rw [h6] at hp
              simp at hp
              rw [← hp.2]
              rw [makeSec_ok_evs W h cfg.securityTransports evs1 h1]
              rw [makeMux_ok_evs W h cfg.muxers evs2 h2]
              rw [makeTpt_ok_evs W h cfg.transports tcs evs3 h3]
              rw [List.filter_append, List.filter_append]
              rw [filter_invoked_map (fun (s : MsSecC) => Event.invoked Role.sec s.secC)
                  (fun s => rfl),
                filter_invoked_map (fun (m : MsMuxC) => Event.invoked Role.mux m.muxC)
                  (fun m => rfl),
                filter_invoked_map (fun (t : TptC) => Event.invoked Role.tpt t) (fun t => rfl)]
              simp [List.append_assoc]

theorem newNodeWithKey_spec (W : World) (ctx : Ctx) (cfg : Config) (k : PrivKey)
    (evs0 : List Event) :
    (∃ e, newNodeWithKey W ctx cfg k evs0 = ⟨.err e, evs0⟩) ∨
    (newNodeWithKey W ctx cfg k evs0 = ⟨.panics, evs0⟩) ∨
    (∃ H res evs, buildAfterHost W ctx cfg H = (res, evs) ∧
       newNodeWithKey W ctx cfg k evs0 = ⟨res, evs0 ++ Event.hostNew :: evs⟩) := by
  unfold newNodeWithKey
  cases hid : W.idFromPub (W.getPub k) with
  | error e => exact Or.inl ⟨e, rfl⟩
  | ok pid =>
    cases hk : cfg.peerKey with
    | none => exact Or.inr (Or.inl rfl)
    | some k0 =>
      exact Or.inr (Or.inr
        ⟨⟨pid, (((nodePeerstore cfg).addPrivKey pid (some k0)).addPubKey pid (W.getPub k0))⟩,
          (buildAfterHost W ctx cfg
            ⟨pid, (((nodePeerstore cfg).addPrivKey pid (some k0)).addPubKey pid
              (W.getPub k0))⟩).1,
          (buildAfterHost W ctx cfg
            ⟨pid, (((nodePeerstore cfg).addPrivKey pid (some k0)).addPubKey pid
              (W.getPub k0))⟩).2,
          rfl, rfl⟩)

theorem newNodeWithKey_err_closed (W : World) (ctx : Ctx) (cfg : Config) (k : PrivKey)
    (evs0 : List Event) (e : String) (h0 : Event.hostNew ∉ evs0) :
    (newNodeWithKey W ctx cfg k evs0).res = NodeResult.err e →
    Event.hostNew ∈ (newNodeWithKey W ctx cfg k evs0).evs →
    Event.hostClosed ∈ (newNodeWithKey W ctx cfg k evs0).evs := by
  intro hres hmem
  rcases newNodeWithKey_spec W ctx cfg k evs0 with ⟨e2, hEq⟩ | hEq | ⟨H, res, evs, hb, hEq⟩
  · rw [hEq] at hmem; exact absurd hmem h0
  · rw [hEq] at hres; simp at hres
  · rw [hEq] at hres ⊢
    simp only at hres ⊢
    have hc := buildAfterHost_err_closed W ctx cfg H res evs e hb hres
    simp [List.mem_append, hc]

theorem newNodeWithKey_ok_filter (W : World) (ctx : Ctx) (cfg : Config) (k : PrivKey)
    (evs0 : List Event) (hh : Host) (h0 : evs0.filter Event.isInvoked = []) :
    (newNodeWithKey W ctx cfg k evs0).res = NodeResult.ok hh →
    (newNodeWithKey W ctx cfg k evs0).evs.filter Event.isInvoked =
      (cfg.securityTransports.map fun s => Event.invoked Role.sec s.secC) ++
      (cfg.muxers.map fun m => Event.invoked Role.mux m.muxC) ++
      (cfg.transports.map fun t => Event.invoked Role.tpt t) := by
  intro hres
  rcases newNodeWithKey_spec W ctx cfg k evs0 with ⟨e2, hEq⟩ | hEq | ⟨H, res, evs, hb, hEq⟩
  · rw [hEq] at hres; simp at hres
  · rw [hEq] at hres; simp at hres
  · rw [hEq] at hres ⊢
    simp only at hres ⊢
    have hf := buildAfterHost_ok_filter W ctx cfg H res evs hh hb hres
    rw [List.filter_append, h0]
    simp [List.filter_cons, Event.isInvoked, hf]

theorem newNodeWithKey_evs0_mem (W : World) (ctx : Ctx) (cfg : Config) (k : PrivKey)
    (evs0 : List Event) (ev : Event) (h : ev ∈ evs0) :
    ev ∈ (newNodeWithKey W ctx cfg k evs0).evs := by
  rcases newNodeWithKey_spec W ctx cfg k evs0 with ⟨e2, hEq⟩ | hEq | ⟨H, res, evs, hb, hEq⟩ <;>
    rw [hEq] <;> simp [h]

theorem listenLoop_parseAll_ok (W : World) : ∀ (ss : List String) (cfg : Config)
    (as : List Multiaddr), parseAll W ss = .ok as →
    listenLoop W ss cfg = ⟨{ cfg with listenAddrs := cfg.listenAddrs ++ as }, none, []⟩ := by
  intro ss
  induction ss with
  | nil =>
    intro cfg as hp
    simp [parseAll] at hp
    subst hp
    simp [listenLoop]
  | cons s rest ih =>
    intro cfg as hp
    unfold parseAll at hp
    cases hs : W.parseAddr s with
    | error e => rw [hs] at hp; simp at hp
    | ok a =>
      rw [hs] at hp
      cases hr : parseAll W rest with
      | error e => rw [hr] at hp; simp at hp
      | ok as2 =>
        rw [hr] at hp
        simp at hp
        subst hp
        unfold listenLoop
        rw [hs]
        simp only [ih _ as2 hr]
        simp [List.append_assoc]

theorem listenLoop_parseAll_err (W : World) : ∀ (ss : List String) (cfg : Config)
    (e : String), parseAll W ss = .error e →
    (listenLoop W ss cfg).err = some e := by
  intro ss
  induction ss with
  | nil => intro cfg e hp; simp [parseAll] at hp
  | cons s rest ih =>
    intro cfg e hp
    unfold parseAll at hp
    cases hs : W.parseAddr s with
    | error e2 =>
      rw [hs] at hp
      simp at hp
      unfold listenLoop
      rw [hs, hp]
    | ok a =>
      rw [hs] at hp
      cases hr : parseAll W rest with
      | error e2 =>
        rw [hr] at hp
        simp at hp
        subst hp
        unfold listenLoop
        rw [hs]
        exact ih _ e2 hr
      | ok as2 => rw [hr] at hp; simp at hp

theorem runOpts_cons_err (W : World) (o : Opt) (os : List Opt) (cfg : Config) (e : String)
    (h : (applyOpt W o cfg).err = some e) :
    runOpts W (o :: os) cfg = applyOpt W o cfg := by
  unfold runOpts
  rcases ha : applyOpt W o cfg with ⟨c, err, evs⟩
  rw [ha] at h
  simp at h
  subst h
  rfl

theorem runOpts_cons_ok (W : World) (o : Opt) (os : List Opt) (cfg : Config)
    (h : (applyOpt W o cfg).err = none) :
    runOpts W (o :: os) cfg =
      ⟨(runOpts W os (applyOpt W o cfg).cfg).cfg, (runOpts W os (applyOpt W o cfg).cfg).err,
        (applyOpt W o cfg).evs ++ (runOpts W os (applyOpt W o cfg).cfg).evs⟩ := by
  rcases ha : applyOpt W o cfg with ⟨c, err, evs⟩
  rw [ha] at h
  simp at h
  subst h
  rcases hr : runOpts W os c with ⟨c2, e2, evs2⟩
  simp only [runOpts, ha, hr]

theorem New_err (W : World) (ctx : Ctx) (opts : List Opt) (e : String)
    (h : (runOpts W opts Config.empty).err = some e) :
    New W ctx opts = ⟨NodeResult.err e, (runOpts W opts Config.empty).evs⟩ := by
  unfold New
  rcases hr : runOpts W opts Config.empty with ⟨c, err, evs⟩
  rw [hr] at h
  simp at h
  subst h
  rfl

/-! ## Claim theorems -/

/-- Claim C1 (the code evaluated at the failing input): building with
no options does not succeed — it panics.  `NewNode` keeps the generated
key only in the local `privKey`, passes the nil `cfg.PeerKey` to
`AddPrivKey`, and then calls `GetPublic` on that nil interface value,
a runtime panic.  The generated keys are never inserted into the
peerstore and no host is returned. -/
theorem C1_new_no_options_panics :
    ∀ (ctx : Ctx), (New W0 ctx []).res = NodeResult.panics := by
  intro ctx
  rfl

/-- Claim C2: `NoSecurity` applied after a security transport has been
registered errors and leaves the config unchanged; `Security` applied
to an insecure config errors and leaves the config unchanged; and in
every config reachable from the empty config by any option sequence,
`Insecure = true` and a non-empty security-provider list never hold
together. -/
theorem C2_insecure_security_exclusive :
    (∀ (W : World) (cfg : Config), cfg.securityTransports ≠ [] →
      applyOpt W Opt.noSecurity cfg = ⟨cfg, some secInsecureErr, []⟩) ∧
    (∀ (W : World) (cfg : Config) (nm : String) (t : Nat), cfg.insecure = true →
      applyOpt W (Opt.security nm t) cfg = ⟨cfg, some secInsecureErr, []⟩) ∧
    (∀ (W : World) (opts : List Opt),
      ¬((runOpts W opts Config.empty).cfg.insecure = true ∧
        (runOpts W opts Config.empty).cfg.securityTransports ≠ [])) := by
  refine ⟨?_, ?_, ?_⟩
  · intro W cfg hne
    have hl : 0 < cfg.securityTransports.length := List.length_pos.mpr hne
    simp only [applyOpt]
    rw [if_pos hl]
  · intro W cfg nm t hI
    simp only [applyOpt]
    rw [if_pos hI]
  · intro W opts h
    have hInv : SecInv (runOpts W opts Config.empty).cfg :=
      secInv_runOpts W opts Config.empty fun _ => rfl
    exact h.2 (hInv h.1)

/-- Witness for C2 at concrete inputs: `NoSecurity` after a registered
security transport errors; `Security` after `NoSecurity` errors; the
chain `[NoSecurity, Security]` never reaches a config violating the
invariant. -/
theorem C2_witness :
    (applyOpt W0 Opt.noSecurity ⟨[], [], [⟨1, "s"⟩], [], none, none, none, none, false, [], false⟩ =
      ⟨⟨[], [], [⟨1, "s"⟩], [], none, none, none, none, false, [], false⟩,
        some secInsecureErr, []⟩) ∧
    (applyOpt W0 (Opt.security "x" 1) ⟨[], [], [], [], none, none, none, none, false, [], true⟩ =
      ⟨⟨[], [], [], [], none, none, none, none, false, [], true⟩, some secInsecureErr, []⟩) ∧
    ¬((runOpts W0 [Opt.noSecurity, Opt.security "x" 1] Config.empty).cfg.insecure = true ∧
      (runOpts W0 [Opt.noSecurity, Opt.security "x" 1] Config.empty).cfg.securityTransports ≠ []) :=
  ⟨C2_insecure_security_exclusive.1 W0 _ (by decide),
   C2_insecure_security_exclusive.2.1 W0 _ "x" 1 rfl,
   C2_insecure_security_exclusive.2.2 W0 _⟩

/-- Claim C3: each of `Identity`, `Peerstore`, `PrivateNetwork` and
`BandwidthReporter` sets its field and succeeds when the field is
unset, and errors leaving the config unchanged when the field is
already set — whatever the new value, including one equal to the
existing value. -/
theorem C3_mutual_exclusion :
    ∀ (W : World) (cfg : Config) (k : PrivKey) (ps : Peerstore) (pr : Protector)
      (rep : Reporter),
    (cfg.peerKey = none → applyOpt W (Opt.identity k) cfg =
      ⟨{ cfg with peerKey := some k }, none, []⟩) ∧
    (cfg.peerKey ≠ none → applyOpt W (Opt.identity k) cfg =
      ⟨cfg, some "cannot specify multiple identities", []⟩) ∧
    (cfg.peerstore = none → applyOpt W (Opt.peerstore ps) cfg =
      ⟨{ cfg with peerstore := some ps }, none, []⟩) ∧
    (cfg.peerstore ≠ none → applyOpt W (Opt.peerstore ps) cfg =
      ⟨cfg, some "cannot specify multiple peerstore options", []⟩) ∧
    (cfg.protector = none → applyOpt W (Opt.privateNetwork pr) cfg =
      ⟨{ cfg with protector := some pr }, none, []⟩) ∧
    (cfg.protector ≠ none → applyOpt W (Opt.privateNetwork pr) cfg =
      ⟨cfg, some "cannot specify multiple private network options", []⟩) ∧
    (cfg.reporter = none → applyOpt W (Opt.bandwidthReporter rep) cfg =
      ⟨{ cfg with reporter := some rep }, none, []⟩) ∧
    (cfg.reporter ≠ none → applyOpt W (Opt.bandwidthReporter rep) cfg =
      ⟨cfg, some "cannot specify multiple bandwidth reporter options", []⟩) := by
  intro W cfg k ps pr rep
  refine ⟨?_, ?_, ?_, ?_, ?_, ?_, ?_, ?_⟩
  · intro h; simp [applyOpt, h]
  · intro h
    rcases hk : cfg.peerKey with _ | v
    · exact absurd hk h
    · simp [applyOpt, hk]
  · intro h; simp [applyOpt, h]
  · intro h
    rcases hk : cfg.peerstore with _ | v
    · exact absurd hk h
    · simp [applyOpt, hk]
  · intro h; simp [applyOpt, h]
  · intro h
    rcases hk : cfg.protector with _ | v
    · exact absurd hk h
    · simp [applyOpt, hk]
  · intro h; simp [applyOpt, h]
  · intro h
    rcases hk : cfg.reporter with _ | v
    · exact absurd hk h
    · simp [applyOpt, hk]

/-- Witness for C3, including a second write with a value equal to the
existing one (`Identity 5` onto a config whose key is already `5`),
which still errors and leaves the config unchanged. -/
theorem C3_witness :
    (applyOpt W0 (Opt.identity 5) Config.empty =
      ⟨{ Config.empty with peerKey := some 5 }, none, []⟩) ∧
    (applyOpt W0 (Opt.identity 5) { Config.empty with peerKey := some 5 } =
      ⟨{ Config.empty with peerKey := some 5 },
        some "cannot specify multiple identities", []⟩) ∧
    (applyOpt W0 (Opt.peerstore ⟨[], []⟩) Config.empty =
      ⟨{ Config.empty with peerstore := some ⟨[], []⟩ }, none, []⟩) ∧
    (applyOpt W0 (Opt.peerstore ⟨[], []⟩) { Config.empty with peerstore := some ⟨[], []⟩ } =
      ⟨{ Config.empty with peerstore := some ⟨[], []⟩ },
        some "cannot specify multiple peerstore options", []⟩) ∧
    (applyOpt W0 (Opt.privateNetwork 3) Config.empty =
      ⟨{ Config.empty with protector := some 3 }, none, []⟩) ∧
    (applyOpt W0 (Opt.privateNetwork 3) { Config.empty with protector := some 3 } =
      ⟨{ Config.empty with protector := some 3 },
        some "cannot specify multiple private network options", []⟩) ∧
    (applyOpt W0 (Opt.bandwidthReporter 4) Config.empty =
      ⟨{ Config.empty with reporter := some 4 }, none, []⟩) ∧
    (applyOpt W0 (Opt.bandwidthReporter 4) { Config.empty with reporter := some 4 } =
      ⟨{ Config.empty with reporter := some 4 },
        some "cannot specify multiple bandwidth reporter options", []⟩) :=
  ⟨(C3_mutual_exclusion W0 Config.empty 5 ⟨[], []⟩ 3 4).1 rfl,
   (C3_mutual_exclusion W0 { Config.empty with peerKey := some 5 } 5 ⟨[], []⟩ 3 4).2.1
     (by decide),
   (C3_mutual_exclusion W0 Config.empty 5 ⟨[], []⟩ 3 4).2.2.1 rfl,
   (C3_mutual_exclusion W0 { Config.empty with peerstore := some ⟨[], []⟩ } 5 ⟨[], []⟩ 3 4).2.2.2.1
     (by decide),
   (C3_mutual_exclusion W0 Config.empty 5 ⟨[], []⟩ 3 4).2.2.2.2.1 rfl,
   (C3_mutual_exclusion W0 { Config.empty with protector := some 3 } 5 ⟨[], []⟩ 3 4).2.2.2.2.2.1
     (by decide),
   (C3_mutual_exclusion W0 Config.empty 5 ⟨[], []⟩ 3 4).2.2.2.2.2.2.1 rfl,
   (C3_mutual_exclusion W0 { Config.empty with reporter := some 4 } 5 ⟨[], []⟩ 3 4).2.2.2.2.2.2.2
     (by decide)⟩

/-- Claim C4: `ChainOptions` is the left-to-right fold of its children;
both it and `New`'s loop stop at the first failing option, returning
its error without applying the rest; and on an option failure `New`
returns that error without ever entering `NewNode` (no `nodeStart`
event). -/
theorem C4_executor_fail_fast :
    ∀ (W : World) (ctx : Ctx) (o : Opt) (os opts : List Opt) (cfg : Config) (e : String),
    (ChainOptions W os cfg = runOpts W os cfg) ∧
    ((applyOpt W o cfg).err = some e →
      runOpts W (o :: os) cfg = applyOpt W o cfg ∧
      ChainOptions W (o :: os) cfg = applyOpt W o cfg) ∧
    ((applyOpt W o cfg).err = none →
      runOpts W (o :: os) cfg =
        ⟨(runOpts W os (applyOpt W o cfg).cfg).cfg, (runOpts W os (applyOpt W o cfg).cfg).err,
          (applyOpt W o cfg).evs ++ (runOpts W os (applyOpt W o cfg).cfg).evs⟩) ∧
    ((runOpts W opts Config.empty).err = some e →
      New W ctx opts = ⟨NodeResult.err e, (runOpts W opts Config.empty).evs⟩ ∧
      Event.nodeStart ∉ (runOpts W opts Config.empty).evs) := by
  intro W ctx o os opts cfg e
  refine ⟨chainLoop_eq_runOpts W os cfg, ?_, ?_, ?_⟩
  · intro he
    have h1 := runOpts_cons_err W o os cfg e he
    refine ⟨h1, ?_⟩
    unfold ChainOptions
    rw [chainLoop_eq_runOpts]
    exact h1
  · intro he
    exact runOpts_cons_ok W o os cfg he
  · intro he
    refine ⟨New_err W ctx opts e he, ?_⟩
    exact all_shape_no_nodeStart _ (runOpts_evs_shape W opts Config.empty)

/-- Witness for C4: the conflicting chain `[Identity 2, Identity 3]`
fails at its second option; `New` returns exactly that error with no
build events, the loop short-circuits, and a succeeding head option is
folded left to right. -/
theorem C4_witness :
    (New W0 ⟨false⟩ [Opt.identity 2, Opt.identity 3] =
      ⟨NodeResult.err "cannot specify multiple identities",
        (runOpts W0 [Opt.identity 2, Opt.identity 3] Config.empty).evs⟩) ∧
    (Event.nodeStart ∉ (runOpts W0 [Opt.identity 2, Opt.identity 3] Config.empty).evs) ∧
    (runOpts W0 [Opt.identity 2, Opt.identity 3]
        ⟨[], [], [], [], some 1, none, none, none, false, [], false⟩ =
      applyOpt W0 (Opt.identity 2)
        ⟨[], [], [], [], some 1, none, none, none, false, [], false⟩) ∧
    (runOpts W0 [Opt.identity 2] Config.empty =
      ⟨(runOpts W0 [] (applyOpt W0 (Opt.identity 2) Config.empty).cfg).cfg,
        (runOpts W0 [] (applyOpt W0 (Opt.identity 2) Config.empty).cfg).err,
        (applyOpt W0 (Opt.identity 2) Config.empty).evs ++
          (runOpts W0 [] (applyOpt W0 (Opt.identity 2) Config.empty).cfg).evs⟩) ∧
    (ChainOptions W0 [Opt.identity 3] Config.empty = runOpts W0 [Opt.identity 3] Config.empty) :=
  ⟨((C4_executor_fail_fast W0 ⟨false⟩ (Opt.identity 2) [] [Opt.identity 2, Opt.identity 3]
      Config.empty "cannot specify multiple identities").2.2.2 (by rfl)).1,
   ((C4_executor_fail_fast W0 ⟨false⟩ (Opt.identity 2) [] [Opt.identity 2, Opt.identity 3]
      Config.empty "cannot specify multiple identities").2.2.2 (by rfl)).2,
   ((C4_executor_fail_fast W0 ⟨false⟩ (Opt.identity 2) [Opt.identity 3]
      [] ⟨[], [], [], [], some 1, none, none, none, false, [], false⟩
      "cannot specify multiple identities").2.1 (by rfl)).1,
   (C4_executor_fail_fast W0 ⟨false⟩ (Opt.identity 2) [] []
      Config.empty "cannot specify multiple identities").2.2.1 (by rfl),
   (C4_executor_fail_fast W0 ⟨false⟩ (Opt.identity 2) [Opt.identity 3] []
      Config.empty "cannot specify multiple identities").1⟩

/-- Claim C5: no option application ever invokes a provider
constructor (resolution at option time is only the shape check), and a
successful `NewNode` invokes each registered provider's constructor
exactly once, in registration order — security, then muxer, then
transport providers. -/
theorem C5_lazy_exactly_once :
    ∀ (W : World) (ctx : Ctx) (o : Opt) (c cfg : Config) (hh : Host),
    ((applyOpt W o c).evs.filter Event.isInvoked = []) ∧
    ((Config.NewNode W ctx cfg).res = NodeResult.ok hh →
      (Config.NewNode W ctx cfg).evs.filter Event.isInvoked =
        (cfg.securityTransports.map fun s => Event.invoked Role.sec s.secC) ++
        (cfg.muxers.map fun m => Event.invoked Role.mux m.muxC) ++
        (cfg.transports.map fun t => Event.invoked Role.tpt t)) := by
  intro W ctx o c cfg hh
  refine ⟨all_shape_filter_invoked _ (applyOpt_evs_shape W o c), ?_⟩
  intro hres
  unfold Config.NewNode at hres ⊢
  cases hk : cfg.peerKey with
  | some k =>
    rw [hk] at hres
    exact newNodeWithKey_ok_filter W ctx cfg k [Event.nodeStart] hh rfl hres
  | none =>
    rw [hk] at hres
    cases hg : W.genKey with
    | error e => rw [hg] at hres; simp at hres
    | ok k =>
      rw [hg] at hres
      exact newNodeWithKey_ok_filter W ctx cfg k [Event.nodeStart, Event.keyGen] hh rfl hres

/-- Witness for C5: a successful build with one security, one muxer
and one transport provider invokes each exactly once, in order, and a
`Security` option application invokes none. -/
theorem C5_witness :
    ((applyOpt W0 (Opt.security "s" 1) Config.empty).evs.filter Event.isInvoked = []) ∧
    ((Config.NewNode W0 ⟨false⟩
        ⟨[3], [⟨2, "m"⟩], [⟨1, "s"⟩], [], some 5, none, none, none, false, [], false⟩).evs.filter
          Event.isInvoked =
      [Event.invoked Role.sec 1, Event.invoked Role.mux 2, Event.invoked Role.tpt 3]) :=
  ⟨(C5_lazy_exactly_once W0 ⟨false⟩ (Opt.security "s" 1) Config.empty
      ⟨[3], [⟨2, "m"⟩], [⟨1, "s"⟩], [], some 5, none, none, none, false, [], false⟩
      ⟨7, ⟨[(7, some 5)], [(7, 6)]⟩⟩).1,
   (C5_lazy_exactly_once W0 ⟨false⟩ (Opt.security "s" 1) Config.empty
      ⟨[3], [⟨2, "m"⟩], [⟨1, "s"⟩], [], some 5, none, none, none, false, [], false⟩
      ⟨7, ⟨[(7, some 5)], [(7, 6)]⟩⟩).2 rfl⟩

/-- Claim C6, counterexample: with an already-cancelled context, the
build does not abort before allocating — `New` with no options still
performs identity key generation, and a build with an identity runs to
completion and returns a host. -/
theorem C6_counterexample :
    Event.keyGen ∈ (New W0 ⟨true⟩ []).evs ∧
    (New W0 ⟨true⟩ [Opt.identity 5]).res =
      NodeResult.ok ⟨7, ⟨[(7, some 5)], [(7, 6)]⟩⟩ := by
  exact ⟨by decide, rfl⟩

/-- Claim C6 as amended: `NewNode` never consults the context before
allocating; when no identity is configured, key generation is
performed even if the supplied context is already cancelled. -/
theorem C6_amended_no_ctx_check :
    ∀ (W : World) (ctx : Ctx) (cfg : Config), ctx.cancelled = true → cfg.peerKey = none →
      Event.keyGen ∈ (Config.NewNode W ctx cfg).evs := by
  intro W ctx cfg hc hk
  unfold Config.NewNode
  rw [hk]
  cases hg : W.genKey with
  | error e => simp
  | ok k => exact newNodeWithKey_evs0_mem W ctx cfg k _ Event.keyGen (by simp)

/-- Witness for the amended C6: key generation happens under a
cancelled context on the empty config. -/
theorem C6_witness :
    Event.keyGen ∈ (Config.NewNode W0 ⟨true⟩ Config.empty).evs :=
  C6_amended_no_ctx_check W0 ⟨true⟩ Config.empty rfl rfl

/-- Claim C7: whenever `NewNode` returns an error after the host was
constructed (`hostNew` in the event log), the host is closed
(`hostClosed` in the event log) before the error is returned; the
error result carries no host by construction. -/
theorem C7_close_on_failure :
    ∀ (W : World) (ctx : Ctx) (cfg : Config) (e : String),
    (Config.NewNode W ctx cfg).res = NodeResult.err e →
    Event.hostNew ∈ (Config.NewNode W ctx cfg).evs →
    Event.hostClosed ∈ (Config.NewNode W ctx cfg).evs := by
  intro W ctx cfg e hres hmem
  unfold Config.NewNode at hres hmem ⊢
  cases hk : cfg.peerKey with
  | some k =>
    rw [hk] at hres hmem
    exact newNodeWithKey_err_closed W ctx cfg k [Event.nodeStart] e (by decide) hres hmem
  | none =>
    rw [hk] at hres hmem
    cases hg : W.genKey with
    | error e2 => rw [hg] at hmem; simp at hmem
    | ok k =>
      rw [hg] at hres hmem
      exact newNodeWithKey_err_closed W ctx cfg k [Event.nodeStart, Event.keyGen] e
        (by decide) hres hmem

/-- Witness for C7: a build whose security constructor fails after the
host exists closes the host before returning the error. -/
theorem C7_witness :
    Event.hostClosed ∈
      (Config.NewNode W0 ⟨false⟩
        ⟨[], [], [⟨999, "x"⟩], [], some 5, none, none, none, false, [], false⟩).evs :=
  C7_close_on_failure W0 ⟨false⟩
    ⟨[], [], [⟨999, "x"⟩], [], some 5, none, none, none, false, [], false⟩ "secctor"
    rfl (by decide)

/-- Claim C8: `Transport(A)` and `Muxer(B)` commute — both orders
produce the same final config and succeed (when both constructors
resolve) — while `Identity(k1)` then `Identity(k2)` errors in either
order, from every starting config. -/
theorem C8_reorder :
    ∀ (W : World) (cfg : Config) (a : Nat) (nm : String) (b ta mb : Nat) (k1 k2 : PrivKey),
    (W.tptShape a = .ok ta → W.muxShape b = .ok mb →
      (runOpts W [Opt.transport a, Opt.muxer nm b] cfg).cfg =
        (runOpts W [Opt.muxer nm b, Opt.transport a] cfg).cfg ∧
      (runOpts W [Opt.transport a, Opt.muxer nm b] cfg).err = none ∧
      (runOpts W [Opt.muxer nm b, Opt.transport a] cfg).err = none) ∧
    ((runOpts W [Opt.identity k1, Opt.identity k2] cfg).err ≠ none ∧
     (runOpts W [Opt.identity k2, Opt.identity k1] cfg).err ≠ none) := by
  intro W cfg a nm b ta mb k1 k2
  constructor
  · intro h1 h2
    simp [runOpts, applyOpt, h1, h2]
  · constructor
    · cases hk : cfg.peerKey <;> simp [runOpts, applyOpt, hk]
    · cases hk : cfg.peerKey <;> simp [runOpts, applyOpt, hk]

/-- Witness for C8 at concrete resolvable constructors and keys. -/
theorem C8_witness :
    ((runOpts W0 [Opt.transport 1, Opt.muxer "m" 2] Config.empty).cfg =
      (runOpts W0 [Opt.muxer "m" 2, Opt.transport 1] Config.empty).cfg) ∧
    ((runOpts W0 [Opt.transport 1, Opt.muxer "m" 2] Config.empty).err = none) ∧
    ((runOpts W0 [Opt.identity 8, Opt.identity 9] Config.empty).err ≠ none) :=
  ⟨((C8_reorder W0 Config.empty 1 "m" 2 301 202 8 9).1 rfl rfl).1,
   ((C8_reorder W0 Config.empty 1 "m" 2 301 202 8 9).1 rfl rfl).2.1,
   (C8_reorder W0 Config.empty 1 "m" 2 301 202 8 9).2.1⟩

/-- Claim C9: `ListenAddrStrings` parses each string; when all parse,
the parsed addresses are appended in order to the listen-address list
and the option succeeds; when some string fails to parse, the option
returns that first parse error and any chain it heads stops there. -/
theorem C9_listen_addr_strings :
    ∀ (W : World) (ss : List String) (cfg : Config) (addrs : List Multiaddr) (e : String)
      (os : List Opt),
    (parseAll W ss = .ok addrs →
      applyOpt W (Opt.listenAddrStrings ss) cfg =
        ⟨{ cfg with listenAddrs := cfg.listenAddrs ++ addrs }, none, []⟩) ∧
    (parseAll W ss = .error e →
      (applyOpt W (Opt.listenAddrStrings ss) cfg).err = some e ∧
      runOpts W (Opt.listenAddrStrings ss :: os) cfg =
        applyOpt W (Opt.listenAddrStrings ss) cfg) := by
  intro W ss cfg addrs e os
  constructor
  · intro hp
    simp only [applyOpt]
    exact listenLoop_parseAll_ok W ss cfg addrs hp
  · intro hp
    have he : (applyOpt W (Opt.listenAddrStrings ss) cfg).err = some e := by
      simp only [applyOpt]
      exact listenLoop_parseAll_err W ss cfg e hp
    exact ⟨he, runOpts_cons_err W (Opt.listenAddrStrings ss) os cfg e he⟩

/-- Witness for C9: two valid strings append two parsed addresses in
order; a list with an invalid string yields the parse error and stops
the chain before a following option. -/
theorem C9_witness :
    (applyOpt W0 (Opt.listenAddrStrings ["ab", "c"]) Config.empty =
      ⟨{ Config.empty with listenAddrs := [2, 1] }, none, []⟩) ∧
    ((applyOpt W0 (Opt.listenAddrStrings ["ab", "bad"]) Config.empty).err = some "parse") ∧
    (runOpts W0 [Opt.listenAddrStrings ["ab", "bad"], Opt.noSecurity] Config.empty =
      applyOpt W0 (Opt.listenAddrStrings ["ab", "bad"]) Config.empty) :=
  ⟨(C9_listen_addr_strings W0 ["ab", "c"] Config.empty [2, 1] "parse" []).1 rfl,
   ((C9_listen_addr_strings W0 ["ab", "bad"] Config.empty [] "parse" [Opt.noSecurity]).2 rfl).1,
   ((C9_listen_addr_strings W0 ["ab", "bad"] Config.empty [] "parse" [Opt.noSecurity]).2 rfl).2⟩

/-- Claim C10: for `Security`, `Muxer` and `Transport`, a failing
constructor-shape resolution returns that error with the config
completely unchanged, and a successful resolution appends exactly one
element to the corresponding provider list and changes nothing else. -/
theorem C10_provider_options :
    ∀ (W : World) (cfg : Config) (nm : String) (t : Nat) (e : String) (c : Nat),
    (cfg.insecure = false → W.secShape t = .error e →
      applyOpt W (Opt.security nm t) cfg =
        ⟨cfg, some e, [Event.shapeChecked Role.sec t]⟩) ∧
    (cfg.insecure = false → W.secShape t = .ok c →
      applyOpt W (Opt.security nm t) cfg =
        ⟨{ cfg with securityTransports := cfg.securityTransports ++ [⟨c, nm⟩] }, none,
          [Event.shapeChecked Role.sec t]⟩) ∧
    (W.muxShape t = .error e → applyOpt W (Opt.muxer nm t) cfg =
      ⟨cfg, some e, [Event.shapeChecked Role.mux t]⟩) ∧
    (W.muxShape t = .ok c → applyOpt W (Opt.muxer nm t) cfg =
      ⟨{ cfg with muxers := cfg.muxers ++ [⟨c, nm⟩] }, none,
        [Event.shapeChecked Role.mux t]⟩) ∧
    (W.tptShape t = .error e → applyOpt W (Opt.transport t) cfg =
      ⟨cfg, some e, [Event.shapeChecked Role.tpt t]⟩) ∧
    (W.tptShape t = .ok c → applyOpt W (Opt.transport t) cfg =
      ⟨{ cfg with transports := cfg.transports ++ [c] }, none,
        [Event.shapeChecked Role.tpt t]⟩) := by
  intro W cfg nm t e c
  refine ⟨?_, ?_, ?_, ?_, ?_, ?_⟩
  · intro hI hs; simp [applyOpt, hI, hs]
  · intro hI hs; simp [applyOpt, hI, hs]
  · intro hs; simp [applyOpt, hs]
  · intro hs; simp [applyOpt, hs]
  · intro hs; simp [applyOpt, hs]
  · intro hs; simp [applyOpt, hs]

/-- Witness for C10 with one failing and one succeeding constructor
shape per role. -/
theorem C10_witness :
    (applyOpt W0 (Opt.security "s" 0) Config.empty =
      ⟨Config.empty, some "secshape", [Event.shapeChecked Role.sec 0]⟩) ∧
    (applyOpt W0 (Opt.security "s" 1) Config.empty =
      ⟨{ Config.empty with securityTransports := [⟨101, "s"⟩] }, none,
        [Event.shapeChecked Role.sec 1]⟩) ∧
    (applyOpt W0 (Opt.muxer "m" 0) Config.empty =
      ⟨Config.empty, some "muxshape", [Event.shapeChecked Role.mux 0]⟩) ∧
    (applyOpt W0 (Opt.muxer "m" 1) Config.empty =
      ⟨{ Config.empty with muxers := [⟨201, "m"⟩] }, none,
        [Event.shapeChecked Role.mux 1]⟩) ∧
    (applyOpt W0 (Opt.transport 0) Config.empty =
      ⟨Config.empty, some "tptshape", [Event.shapeChecked Role.tpt 0]⟩) ∧
    (applyOpt W0 (Opt.transport 1) Config.empty =
      ⟨{ Config.empty with transports := [301] }, none,
        [Event.shapeChecked Role.tpt 1]⟩) :=
  ⟨(C10_provider_options W0 Config.empty "s" 0 "secshape" 101).1 rfl rfl,
   (C10_provider_options W0 Config.empty "s" 1 "secshape" 101).2.1 rfl rfl,
   (C10_provider_options W0 Config.empty "m" 0 "muxshape" 201).2.2.1 rfl,
   (C10_provider_options W0 Config.empty "m" 1 "muxshape" 201).2.2.2.1 rfl,
   (C10_provider_options W0 Config.empty "t" 0 "tptshape" 301).2.2.2.2.1 rfl,
   (C10_provider_options W0 Config.empty "t" 1 "tptshape" 301).2.2.2.2.2 rfl⟩
